import Mathlib

/-!
# Verification of the atlas-rendering core (impeller atlas contents and compute pass)

A shallow embedding of `src/impeller/entity/contents/atlas_contents.cc` and
`src/impeller/renderer/compute_pass.cc`.  Scalars are modelled as rationals,
`std::ceil` as an explicit executable ceiling on rationals, vectors as lists,
and the `unordered_map` used for sub-atlas deduplication as an association
list in first-insertion order (the C++ iteration order is unspecified; this
embedding fixes one admissible order).  GPU collaborators (pass encoder, the
compositing subsystem, the blend-coefficient table) are environment
parameters; a render call is a pure function returning its success flag, the
list of draw calls submitted to the pass, and the updated contents state.
-/

namespace Impeller

/-- Floor of a rational, computed executably (`q.num.ediv q.den`). -/
def qfloor (q : ℚ) : ℤ := q.num.ediv q.den

/-- Executable ceiling on rationals; embeds `std::ceil` on exactly
representable scalar values. -/
def qceil (q : ℚ) : ℤ := -qfloor (-q)

theorem qfloor_eq_floor (q : ℚ) : qfloor q = ⌊q⌋ := by
  rw [Rat.floor_def, qfloor]; rfl

theorem qceil_eq_ceil (q : ℚ) : qceil q = ⌈q⌉ := by
  rw [qceil, qfloor_eq_floor, Int.floor_neg, neg_neg]

theorem le_qceil (q : ℚ) : q ≤ (qceil q : ℚ) := by
  rw [qceil_eq_ceil]; exact Int.le_ceil q

/-- A 2D point (`impeller::Point`). -/
structure Point where
  x : ℚ
  y : ℚ
deriving DecidableEq, Repr, Inhabited

/-- A 2D size (`impeller::Size`). -/
structure Size where
  width : ℚ
  height : ℚ
deriving DecidableEq, Repr, Inhabited

/-- Componentwise division of a point by a size
(`points[indices[j]] / texture_size`). -/
def Point.divSize (p : Point) (s : Size) : Point :=
  ⟨p.x / s.width, p.y / s.height⟩

/-- A 4x4 transformation matrix (`impeller::Matrix`), entry `mRC` is row `R`,
column `C`.  Only the entries read by 2D point transformation are relevant to
the embedded code paths. -/
structure Matrix4 where
  m00 : ℚ
  m01 : ℚ
  m03 : ℚ
  m10 : ℚ
  m11 : ℚ
  m13 : ℚ
  m30 : ℚ
  m31 : ℚ
  m33 : ℚ
deriving DecidableEq, Repr, Inhabited

/-- The identity matrix. -/
def Matrix4.identity : Matrix4 :=
  { m00 := 1, m01 := 0, m03 := 0,
    m10 := 0, m11 := 1, m13 := 0,
    m30 := 0, m31 := 0, m33 := 1 }

/-- `Matrix::MakeTranslation(Vector2(x, y))`. -/
def Matrix4.makeTranslation (x y : ℚ) : Matrix4 :=
  { Matrix4.identity with m03 := x, m13 := y }

/-- Apply the matrix to a 2D point (z = 0) with perspective divide,
mirroring `Matrix::Transform(Point)`. -/
def Matrix4.transformPoint (m : Matrix4) (p : Point) : Point :=
  let w := m.m30 * p.x + m.m31 * p.y + m.m33
  ⟨(m.m00 * p.x + m.m01 * p.y + m.m03) / w,
   (m.m10 * p.x + m.m11 * p.y + m.m13) / w⟩

/-- An axis-aligned rectangle stored as origin and size (`impeller::Rect`). -/
structure Rect where
  x : ℚ
  y : ℚ
  w : ℚ
  h : ℚ
deriving DecidableEq, Repr, Inhabited

/-- `Rect::MakeXYWH`. -/
def Rect.makeXYWH (x y w h : ℚ) : Rect := ⟨x, y, w, h⟩

/-- `Rect::MakeSize`: a rectangle at the origin with the given size. -/
def Rect.makeSize (s : Size) : Rect := ⟨0, 0, s.width, s.height⟩

def Rect.getSize (r : Rect) : Size := ⟨r.w, r.h⟩

/-- Corner `i` of the rectangle in the order returned by `Rect::GetPoints`:
top-left, top-right, bottom-left, bottom-right. -/
def Rect.pointAt (r : Rect) : ℕ → Point
  | 0 => ⟨r.x, r.y⟩
  | 1 => ⟨r.x + r.w, r.y⟩
  | 2 => ⟨r.x, r.y + r.h⟩
  | _ => ⟨r.x + r.w, r.y + r.h⟩

/-- Corner `i` of the rectangle after transformation
(`Rect::GetTransformedPoints`). -/
def Rect.transformedPointAt (r : Rect) (m : Matrix4) (i : ℕ) : Point :=
  m.transformPoint (r.pointAt i)

/-- `Rect::TransformBounds`: the axis-aligned bounding box of the four
transformed corners. -/
def Rect.transformBounds (r : Rect) (m : Matrix4) : Rect :=
  let p0 := r.transformedPointAt m 0
  let p1 := r.transformedPointAt m 1
  let p2 := r.transformedPointAt m 2
  let p3 := r.transformedPointAt m 3
  let minX := min (min p0.x p1.x) (min p2.x p3.x)
  let minY := min (min p0.y p1.y) (min p2.y p3.y)
  let maxX := max (max p0.x p1.x) (max p2.x p3.x)
  let maxY := max (max p0.y p1.y) (max p2.y p3.y)
  ⟨minX, minY, maxX - minX, maxY - minY⟩

/-- `Rect::Union`: the smallest rectangle containing both. -/
def Rect.union (a b : Rect) : Rect :=
  let l := min a.x b.x
  let t := min a.y b.y
  let r := max (a.x + a.w) (b.x + b.w)
  let bo := max (a.y + a.h) (b.y + b.h)
  ⟨l, t, r - l, bo - t⟩

/-- An RGBA color with unpremultiplied rational components
(`impeller::Color`). -/
structure Color where
  red : ℚ
  green : ℚ
  blue : ℚ
  alpha : ℚ
deriving DecidableEq, Repr, Inhabited

/-- `Color::Premultiply`. -/
def Color.premultiply (c : Color) : Color :=
  ⟨c.red * c.alpha, c.green * c.alpha, c.blue * c.alpha, c.alpha⟩

/-- Quantize one color channel to a byte (round to nearest, keep the low
8 bits). -/
def colorChannelByte (q : ℚ) : ℕ := (qfloor (q * 255 + mkRat 1 2)).toNat % 256

/-- Modelled from the spec: `Color::ToIColor` (defined in the repository's
geometry library, outside the reviewed sources) derives a 32-bit quantized
color value from the four floating-point channels; the channels are quantized
to bytes and packed as ARGB. -/
def Color.toIColor (c : Color) : ℕ :=
  colorChannelByte c.alpha * 2 ^ 24 + colorChannelByte c.red * 2 ^ 16 +
    colorChannelByte c.green * 2 ^ 8 + colorChannelByte c.blue

/-- Modelled from the spec: the Porter-Duff-family blend-mode enumeration
(declared in the repository's format headers, outside the reviewed sources).
The simple/separable modes form an initial segment ending at `kModulate`;
the advanced non-separable modes follow. -/
inductive BlendMode where
  | kClear
  | kSource
  | kDestination
  | kSourceOver
  | kDestinationOver
  | kSourceIn
  | kDestinationIn
  | kSourceOut
  | kDestinationOut
  | kSourceATop
  | kDestinationATop
  | kXor
  | kPlus
  | kModulate
  | kScreen
  | kOverlay
  | kDarken
  | kLighten
  | kColorDodge
  | kColorBurn
  | kHardLight
  | kSoftLight
  | kDifference
  | kExclusion
  | kMultiply
  | kHue
  | kSaturation
  | kColor
  | kLuminosity
deriving DecidableEq, Repr, Inhabited

/-- The comparison `blend_mode_ <= BlendMode::kModulate` selecting the
single-pass Porter-Duff path. -/
def BlendMode.isSimple (m : BlendMode) : Bool :=
  m.toCtorIdx ≤ BlendMode.kModulate.toCtorIdx

/-- A GPU texture, reduced to the properties the embedded code reads:
its pixel size and its vertical coordinate scale. -/
structure Texture where
  width : ℚ
  height : ℚ
  yCoordScale : ℚ
deriving DecidableEq, Repr, Inhabited

def Texture.getSize (t : Texture) : Size := ⟨t.width, t.height⟩

/-- `impeller::SubAtlasResult`. -/
structure SubAtlasResult where
  sub_texture_coords : List Rect
  sub_colors : List Color
  sub_transforms : List Matrix4
  result_texture_coords : List Rect
  result_transforms : List Matrix4
  size : ℤ × ℤ
deriving DecidableEq, Repr, Inhabited

/-- The state of an `impeller::AtlasContents` object: the caller-supplied
instance set plus the memoized bounding box. -/
structure AtlasContents where
  texture : Option Texture
  transforms : List Matrix4
  texture_coords : List Rect
  colors : List Color
  alpha : ℚ
  blend_mode : BlendMode
  cull_rect : Option Rect
  bounding_box_cache : Option Rect
deriving DecidableEq, Repr, Inhabited

/-- `AtlasBlenderKey`: the deduplication key, carrying the full-precision
color, the texture region and the derived 32-bit quantized color. -/
structure AtlasBlenderKey where
  color : Color
  rect : Rect
  color_key : ℕ
deriving DecidableEq, Repr, Inhabited

/-- `AtlasBlenderKey::Equal`: region equality plus quantized-color equality;
the full-precision `color` field is not consulted. -/
def AtlasBlenderKey.keyEqual (lhs rhs : AtlasBlenderKey) : Bool :=
  lhs.rect == rhs.rect && lhs.color_key == rhs.color_key

/-- The tuple of values combined by `AtlasBlenderKey::Hash`
(`fml::HashCombine(color_key, width, height, x, y)`). -/
def AtlasBlenderKey.hashInputs (k : AtlasBlenderKey) : ℕ × ℚ × ℚ × ℚ × ℚ :=
  (k.color_key, k.rect.w, k.rect.h, k.rect.x, k.rect.y)

/-- Insert one instance's transform into the association list that embeds the
`unordered_map` keyed by `AtlasBlenderKey`: append to the bucket of the first
key equal under `AtlasBlenderKey::Equal`, else append a fresh bucket. -/
def groupInsert (k : AtlasBlenderKey) (t : Matrix4) :
    List (AtlasBlenderKey × List Matrix4) → List (AtlasBlenderKey × List Matrix4)
  | [] => [(k, [t])]
  | (k', ts) :: rest =>
    if AtlasBlenderKey.keyEqual k' k then (k', ts ++ [t]) :: rest
    else (k', ts) :: groupInsert k t rest

/-- The deduplication key built for instance `i`
(`{.color = colors_[i], .rect = texture_coords_[i], .color_key = ToIColor}`). -/
def AtlasContents.instanceKey (c : AtlasContents) (i : ℕ) : AtlasBlenderKey :=
  { color := c.colors.getD i default,
    rect := c.texture_coords.getD i default,
    color_key := Color.toIColor (c.colors.getD i default) }

/-- The grouping loop of `AtlasContents::GenerateSubAtlas` (lines 91-100):
buckets of member transforms keyed by deduplication key, in first-seen
order. -/
def AtlasContents.subAtlasMap (c : AtlasContents) :
    List (AtlasBlenderKey × List Matrix4) :=
  (List.range c.texture_coords.length).foldl
    (fun m i => groupInsert (c.instanceKey i) (c.transforms.getD i default) m) []

/-- The mutable state threaded through the packing loop of
`GenerateSubAtlas`. -/
structure PackState where
  x_offset : ℚ
  y_offset : ℚ
  x_extent : ℚ
  y_extent : ℚ
  res : SubAtlasResult
deriving DecidableEq, Repr, Inhabited

/-- One iteration of the packing loop of `GenerateSubAtlas` (lines 108-138). -/
def packStep (s : PackState) (g : AtlasBlenderKey × List Matrix4) : PackState :=
  let y_offset := if s.x_offset ≥ 1000 then s.y_extent + 1 else s.y_offset
  let x_offset := if s.x_offset ≥ 1000 then 0 else s.x_offset
  let key := g.1
  let transforms := g.2
  let new_rect := Rect.makeXYWH x_offset y_offset key.rect.w key.rect.h
  let sub_transform := Matrix4.makeTranslation x_offset y_offset
  let x_offset2 := x_offset + (qceil key.rect.w : ℚ) + 1
  { x_offset := x_offset2
    y_offset := y_offset
    x_extent := max s.x_extent x_offset2
    y_extent := max s.y_extent (qceil (y_offset + key.rect.h) : ℚ)
    res :=
      { s.res with
        sub_texture_coords := s.res.sub_texture_coords ++ [key.rect]
        sub_colors := s.res.sub_colors ++ [key.color]
        sub_transforms := s.res.sub_transforms ++ [sub_transform]
        result_texture_coords :=
          s.res.result_texture_coords ++ transforms.map (fun _ => new_rect)
        result_transforms := s.res.result_transforms ++ transforms } }

/-- The empty result every pack starts from. -/
def emptySubAtlasResult : SubAtlasResult :=
  { sub_texture_coords := []
    sub_colors := []
    sub_transforms := []
    result_texture_coords := []
    result_transforms := []
    size := (0, 0) }

/-- `AtlasContents::GenerateSubAtlas`: group, shelf-pack each group, and
record the final canvas size `ISize(ceil(x_extent), ceil(y_extent))`. -/
def AtlasContents.generateSubAtlas (c : AtlasContents) : SubAtlasResult :=
  let final := c.subAtlasMap.foldl packStep ⟨0, 0, 0, 0, emptySubAtlasResult⟩
  { final.res with size := (qceil final.x_extent, qceil final.y_extent) }

/-- The packed rectangle of each deduplication group, recovered from the
per-group outputs: the group's translation offset paired with its region's
size (this is the `new_rect` placed by the packing loop). -/
def SubAtlasResult.placedRects (r : SubAtlasResult) : List Rect :=
  List.zipWith (fun (m : Matrix4) (tc : Rect) => Rect.makeXYWH m.m03 m.m13 tc.w tc.h)
    r.sub_transforms r.sub_texture_coords

/-- The recomputation inside `AtlasContents::ComputeBoundingBox`
(lines 152-160): union over all instances of the unit-region rectangle
transformed by the instance matrix, starting from the zero rectangle. -/
def AtlasContents.boundingBoxValue (c : AtlasContents) : Rect :=
  (List.range c.texture_coords.length).foldl
    (fun bounding_box i =>
      let matrix := c.transforms.getD i default
      let sample_rect := c.texture_coords.getD i default
      Rect.union ((Rect.makeSize sample_rect.getSize).transformBounds matrix)
        bounding_box)
    (Rect.makeXYWH 0 0 0 0)

/-- `AtlasContents::ComputeBoundingBox`: return the memoized value, filling
the cache on first use. -/
def AtlasContents.computeBoundingBox (c : AtlasContents) : Rect × AtlasContents :=
  match c.bounding_box_cache with
  | some r => (r, c)
  | none =>
    let r := c.boundingBoxValue
    (r, { c with bounding_box_cache := some r })

/-- `AtlasContents::GetCoverage`: the transformed cull rect when present,
else the transformed memoized bounding box. -/
def AtlasContents.getCoverage (c : AtlasContents) (entityTransform : Matrix4) :
    Option Rect × AtlasContents :=
  match c.cull_rect with
  | some r => (some (r.transformBounds entityTransform), c)
  | none =>
    let p := c.computeBoundingBox
    (some (p.1.transformBounds entityTransform), p.2)

/-- The coverage rectangle `AtlasContents::Render` computes at line 195 and
hands to whichever strategy it selects: always the computed bounding box,
never the cull rect. -/
def AtlasContents.renderStrategyCoverage (c : AtlasContents) : Rect :=
  (c.computeBoundingBox).1

/-- The index pattern `{0, 1, 2, 1, 2, 3}` shared by every quad emitter. -/
def quadIndices : List ℕ := [0, 1, 2, 1, 2, 3]

/-- A vertex of the Porter-Duff blend pipeline (`VS::PerVertexData` with
position, texture coordinate and premultiplied color). -/
structure PDVertex where
  vertices : Point
  texture_coords : Point
  color : Color
deriving DecidableEq, Repr, Inhabited

/-- A vertex of the texture-fill pipeline. -/
structure TexVertex where
  position : Point
  texture_coords : Point
deriving DecidableEq, Repr, Inhabited

/-- A vertex of the geometry-color pipeline. -/
structure ColorVertex where
  position : Point
  color : Color
deriving DecidableEq, Repr, Inhabited

/-- The fragment uniform of the Porter-Duff blend pipeline (`FS::FragInfo`). -/
structure PDFragInfo where
  output_alpha : ℚ
  input_alpha : ℚ
  src_coeff : ℚ
  src_coeff_dst_alpha : ℚ
  dst_coeff : ℚ
  dst_coeff_src_alpha : ℚ
  dst_coeff_src_color : ℚ
deriving DecidableEq, Repr, Inhabited

/-- One draw call submitted to the collaborator pass, with the data the
embedded code binds for it. -/
inductive DrawCall where
  | porterDuffDraw (vertices : List PDVertex) (frag : PDFragInfo) (tex : Texture)
  | textureDraw (vertices : List TexVertex) (alpha : ℚ) (tex : Texture)
  | colorDraw (vertices : List ColorVertex) (alpha : ℚ)
deriving DecidableEq, Repr

instance : Inhabited DrawCall := ⟨DrawCall.colorDraw [] 0⟩

/-- Whether a draw call is a texture-fill draw (samples only the texture,
carries no color data). -/
def DrawCall.isTextureDraw : DrawCall → Bool
  | .textureDraw _ _ _ => true
  | _ => false

/-- One entry of the `kPorterDuffCoefficients` table: the five blend
coefficients (src, src·dstAlpha, dst, dst·srcAlpha, dst·srcColor). -/
structure BlendCoefficients where
  src : ℚ
  src_dst_alpha : ℚ
  dst : ℚ
  dst_src_alpha : ℚ
  dst_src_color : ℚ
deriving DecidableEq, Repr, Inhabited

/-- The vertex stream of the texture-fill quad emitter (the loop shared by
`AtlasTextureContents::Render`, lines 381-394). -/
def atlasQuadTexVertices (texture_coords : List Rect) (transforms : List Matrix4)
    (texture_size : Size) : List TexVertex :=
  (List.range texture_coords.length).flatMap (fun i =>
    let sample_rect := texture_coords.getD i default
    let matrix := transforms.getD i default
    quadIndices.map (fun idx =>
      { position := (Rect.makeSize sample_rect.getSize).transformedPointAt matrix idx
        texture_coords := (sample_rect.pointAt idx).divSize texture_size }))

/-- The vertex stream of the color quad emitter (the loop in
`AtlasColorContents::Render`, lines 468-480). -/
def atlasQuadColorVertices (texture_coords : List Rect) (transforms : List Matrix4)
    (colors : List Color) : List ColorVertex :=
  (List.range texture_coords.length).flatMap (fun i =>
    let sample_rect := texture_coords.getD i default
    let matrix := transforms.getD i default
    quadIndices.map (fun idx =>
      { position := (Rect.makeSize sample_rect.getSize).transformedPointAt matrix idx
        color := (colors.getD i default).premultiply }))

/-- The vertex stream of the single-pass Porter-Duff path
(`AtlasContents::Render`, lines 222-236). -/
def AtlasContents.porterDuffVertices (c : AtlasContents) (texture_size : Size) :
    List PDVertex :=
  (List.range c.texture_coords.length).flatMap (fun i =>
    let sample_rect := c.texture_coords.getD i default
    let matrix := c.transforms.getD i default
    let color := (c.colors.getD i default).premultiply
    quadIndices.map (fun idx =>
      { vertices := (Rect.makeSize sample_rect.getSize).transformedPointAt matrix idx
        texture_coords := (sample_rect.pointAt idx).divSize texture_size
        color := color }))

/-- The configurable state of an `AtlasTextureContents` child. -/
structure AtlasTextureContents where
  parent : AtlasContents
  alpha : ℚ
  coverage : Rect
  use_destination : Bool
  subatlas : Option SubAtlasResult
  texture : Option Texture
deriving Inhabited

/-- The configurable state of an `AtlasColorContents` child. -/
structure AtlasColorContents where
  parent : AtlasContents
  alpha : ℚ
  coverage : Rect
  subatlas : Option SubAtlasResult
deriving Inhabited

/-- The external collaborators of a render call: the pass encoder's draw
result, the compositing subsystem (`RenderToSnapshot`), and the blend-mode
inversion and coefficient table defined in the blend-filter subsystem
(outside the reviewed sources, hence parameters of the embedding). -/
structure RenderEnv where
  drawOk : Bool
  renderToSnapshot :
    BlendMode → AtlasColorContents → AtlasTextureContents → Option Texture
  invertPorterDuffBlend : BlendMode → Option BlendMode
  porterDuffCoefficients : BlendMode → BlendCoefficients

/-- `AtlasTextureContents::Render`: resolve the texture, pick the vertex
source (parent arrays, or the sub-atlas arrays when one is set), emit the
quad stream, and issue one texture draw unless the stream is empty. -/
def AtlasTextureContents.render (self : AtlasTextureContents) (env : RenderEnv) :
    Bool × List DrawCall :=
  let texture :=
    match self.texture with
    | some t => some t
    | none => self.parent.texture
  match texture with
  | none => (true, [])
  | some tex =>
    let src :=
      match self.subatlas with
      | some sub =>
        if self.use_destination then (sub.result_texture_coords, sub.result_transforms)
        else (sub.sub_texture_coords, sub.sub_transforms)
      | none => (self.parent.texture_coords, self.parent.transforms)
    let vertices := atlasQuadTexVertices src.1 src.2 tex.getSize
    if vertices.isEmpty then (true, [])
    else (env.drawOk, [DrawCall.textureDraw vertices self.alpha tex])

/-- `AtlasColorContents::Render`: pick the vertex source, emit the colored
quad stream, and issue one color draw unless the stream is empty. -/
def AtlasColorContents.render (self : AtlasColorContents) (env : RenderEnv) :
    Bool × List DrawCall :=
  let src :=
    match self.subatlas with
    | some sub => (sub.sub_texture_coords, sub.sub_transforms, sub.sub_colors)
    | none => (self.parent.texture_coords, self.parent.transforms, self.parent.colors)
  let vertices := atlasQuadColorVertices src.1 src.2.1 src.2.2
  if vertices.isEmpty then (true, [])
  else (env.drawOk, [DrawCall.colorDraw vertices self.alpha])

/-- `AtlasContents::Render`: the blend-dispatch decision procedure.  Returns
the success flag, the draw calls submitted to the caller's pass, and the
updated contents (the bounding-box cache may be filled). -/
def AtlasContents.render (c : AtlasContents) (env : RenderEnv) :
    Bool × List DrawCall × AtlasContents :=
  if c.texture = none ∨ c.blend_mode = BlendMode.kClear ∨ c.alpha ≤ 0 then
    (true, [], c)
  else
    let coverage := c.renderStrategyCoverage
    let c' := (c.computeBoundingBox).2
    let tex := c.texture.getD default
    if c.blend_mode = BlendMode.kSource ∨ c.colors.length = 0 then
      let child : AtlasTextureContents :=
        { parent := c', alpha := c.alpha, coverage := coverage,
          use_destination := false, subatlas := none, texture := none }
      let r := child.render env
      (r.1, r.2, c')
    else if c.blend_mode = BlendMode.kDestination then
      let child : AtlasColorContents :=
        { parent := c', alpha := c.alpha, coverage := coverage, subatlas := none }
      let r := child.render env
      (r.1, r.2, c')
    else if c.blend_mode.isSimple then
      let vertices := c.porterDuffVertices tex.getSize
      let inverted_blend_mode :=
        (env.invertPorterDuffBlend c.blend_mode).getD BlendMode.kSource
      let blend_coefficients := env.porterDuffCoefficients inverted_blend_mode
      let frag : PDFragInfo :=
        { output_alpha := c.alpha
          input_alpha := 1
          src_coeff := blend_coefficients.src
          src_coeff_dst_alpha := blend_coefficients.src_dst_alpha
          dst_coeff := blend_coefficients.dst
          dst_coeff_src_alpha := blend_coefficients.dst_src_alpha
          dst_coeff_src_color := blend_coefficients.dst_src_color }
      (env.drawOk, [DrawCall.porterDuffDraw vertices frag tex], c')
    else
      let sub_atlas := c'.generateSubAtlas
      let sub_coverage :=
        Rect.makeXYWH 0 0 (sub_atlas.size.1 : ℚ) (sub_atlas.size.2 : ℚ)
      let src_contents : AtlasTextureContents :=
        { parent := c', alpha := 1, coverage := sub_coverage,
          use_destination := false, subatlas := some sub_atlas, texture := none }
      let dst_contents : AtlasColorContents :=
        { parent := c', alpha := 1, coverage := sub_coverage,
          subatlas := some sub_atlas }
      match env.renderToSnapshot c.blend_mode dst_contents src_contents with
      | none => (false, [], c')
      | some snapshot =>
        let child : AtlasTextureContents :=
          { parent := c', alpha := c.alpha, coverage := coverage,
            use_destination := true, subatlas := some sub_atlas,
            texture := some snapshot }
        let r := child.render env
        (r.1, r.2, c')

/-- Modelled from the spec: `ISize::IsEmpty` (geometry library, outside the
reviewed sources) — an integer size is empty/degenerate when either dimension
is not positive. -/
def isizeIsEmpty (s : ℤ × ℤ) : Bool := s.1 ≤ 0 || s.2 ≤ 0

/-- The state of an `impeller::ComputePass`, with the two collaborator
outcomes (whether the weak context is still alive, and the backend
`OnEncodeCommands` result) as explicit fields. -/
structure ComputePassState where
  grid_size : ℤ × ℤ
  thread_group_size : ℤ × ℤ
  context_alive : Bool
  on_encode_ok : Bool
deriving DecidableEq, Repr, Inhabited

/-- `ComputePass::EncodeCommands` (lines 44-56): reject empty grid or
thread-group sizes with a diagnostic warning, fail silently when the context
is gone, else defer to the backend.  Returns the success flag and the list of
diagnostic warnings emitted. -/
def ComputePassState.encodeCommands (p : ComputePassState) : Bool × List String :=
  if isizeIsEmpty p.grid_size || isizeIsEmpty p.thread_group_size then
    (false,
      ["Attempted to encode a compute pass with an empty grid or thread group size."])
  else if !p.context_alive then (false, [])
  else (p.on_encode_ok, [])

/-- The state threaded through the spec's description of one shelf-packing
step. -/
structure SpecPackState where
  xOffset : ℚ
  yOffset : ℚ
  xExtent : ℚ
  yExtent : ℚ
  placements : List Rect
deriving DecidableEq, Repr, Inhabited

/-- Modelled from the spec (for the refinement claim about the packing loop):
"if `xOffset >= 1000` start a new row: `yOffset = yExtent + 1; xOffset = 0`;
place the group's rectangle at `(xOffset, yOffset)` with its original
width/height; advance `xOffset += ceil(width) + 1`; update
`yExtent = max(yExtent, ceil(yOffset + height))`,
`xExtent = max(xExtent, xOffset)`." -/
def specShelfStep (s : SpecPackState) (dims : ℚ × ℚ) : SpecPackState :=
  let s :=
    if s.xOffset ≥ 1000 then { s with yOffset := s.yExtent + 1, xOffset := 0 } else s
  let placed := Rect.makeXYWH s.xOffset s.yOffset dims.1 dims.2
  let xOffset := s.xOffset + (qceil dims.1 : ℚ) + 1
  { xOffset := xOffset
    yOffset := s.yOffset
    xExtent := max s.xExtent xOffset
    yExtent := max s.yExtent (qceil (s.yOffset + dims.2) : ℚ)
    placements := s.placements ++ [placed] }

/-- Modelled from the spec: the whole shelf-packing pass over the group
rectangles' dimensions, with final canvas size
`(ceil(xExtent), ceil(yExtent))`. -/
def specShelfPack (dims : List (ℚ × ℚ)) : SpecPackState :=
  dims.foldl specShelfStep ⟨0, 0, 0, 0, []⟩

/-- Modelled from the spec: the final canvas size of the spec's packing
description. -/
def specCanvasSize (dims : List (ℚ × ℚ)) : ℤ × ℤ :=
  (qceil (specShelfPack dims).xExtent, qceil (specShelfPack dims).yExtent)

/-- Positive-area intersection of two axis-aligned rectangles. -/
def rectsOverlap (a b : Rect) : Prop :=
  a.x < b.x + b.w ∧ b.x < a.x + a.w ∧ a.y < b.y + b.h ∧ b.y < a.y + a.h

instance : DecidableRel rectsOverlap := fun a b => by
  unfold rectsOverlap; infer_instance

/-- No two rectangles in the list intersect with positive area. -/
def noOverlap (l : List Rect) : Prop :=
  List.Pairwise (fun a b => ¬ rectsOverlap a b) l

/-! ## Fixtures for witnesses and counterexamples -/

/-- A render environment with all collaborators succeeding and a trivial
coefficient table. -/
def envFixture : RenderEnv :=
  { drawOk := true
    renderToSnapshot := fun _ _ _ => none
    invertPorterDuffBlend := fun _ => none
    porterDuffCoefficients := fun _ => ⟨1, 0, 0, 0, 0⟩ }

/-- The cull-rect scenario of the spec: cull rect `(0,0,5,5)` while the
geometry bounding box is `(0,0,50,50)`. -/
def cullFixture : AtlasContents :=
  { texture := some ⟨100, 100, 1⟩
    transforms := [Matrix4.identity]
    texture_coords := [Rect.makeXYWH 0 0 50 50]
    colors := []
    alpha := 1
    blend_mode := BlendMode.kSource
    cull_rect := some (Rect.makeXYWH 0 0 5 5)
    bounding_box_cache := none }

/-- A one-instance set on the single-pass Porter-Duff path. -/
def pdFixture : AtlasContents :=
  { texture := some ⟨16, 16, 1⟩
    transforms := [Matrix4.identity]
    texture_coords := [Rect.makeXYWH 0 0 10 10]
    colors := [⟨1, 1, 1, 1⟩]
    alpha := 1
    blend_mode := BlendMode.kSourceOver
    cull_rect := none
    bounding_box_cache := none }

/-! ## C7: benign no-ops -/

/-- C7: when the texture is absent, the blend mode is `clear`, or the alpha is
not positive, `AtlasContents::Render` returns success, issues no draw call,
and leaves the contents state unchanged. -/
theorem render_benign_noop (c : AtlasContents) (env : RenderEnv)
    (h : c.texture = none ∨ c.blend_mode = BlendMode.kClear ∨ c.alpha ≤ 0) :
    c.render env = (true, [], c) := by
  unfold AtlasContents.render
  rw [if_pos h]

/-- Witness for C7 at a concrete input: an instance set with `clear` blend
mode renders successfully with zero draw calls and unchanged state. -/
theorem render_benign_noop_witness :
    AtlasContents.render
      { texture := some ⟨16, 16, 1⟩
        transforms := [Matrix4.identity]
        texture_coords := [Rect.makeXYWH 0 0 10 10]
        colors := []
        alpha := 1
        blend_mode := BlendMode.kClear
        cull_rect := none
        bounding_box_cache := none } envFixture =
      (true, [],
        { texture := some ⟨16, 16, 1⟩
          transforms := [Matrix4.identity]
          texture_coords := [Rect.makeXYWH 0 0 10 10]
          colors := []
          alpha := 1
          blend_mode := BlendMode.kClear
          cull_rect := none
          bounding_box_cache := none }) :=
  render_benign_noop _ envFixture (Or.inr (Or.inl rfl))

/-! ## C9: compute-pass encoding with a malformed grid -/

/-- C9 counterexample: encoding a compute pass whose grid size is empty fails
(returns `false`) even though the context is alive and the backend would
succeed — the diagnostic warning is emitted, but the call IS aborted,
contrary to the claim that malformed sizes only warn. -/
theorem encode_empty_grid_aborts :
    (ComputePassState.encodeCommands
        { grid_size := (0, 0), thread_group_size := (1, 1),
          context_alive := true, on_encode_ok := true }).1 = false ∧
    (ComputePassState.encodeCommands
        { grid_size := (0, 0), thread_group_size := (1, 1),
          context_alive := true, on_encode_ok := true }).2 ≠ [] := by
  constructor
  · rfl
  · intro h
    simp [ComputePassState.encodeCommands, isizeIsEmpty] at h

/-- C9 (amended): encoding a compute pass with an empty/degenerate grid size
or thread-group size emits one diagnostic warning AND reports failure,
regardless of the context or backend state. -/
theorem encode_empty_grid_warns_and_fails (p : ComputePassState)
    (h : (isizeIsEmpty p.grid_size || isizeIsEmpty p.thread_group_size) = true) :
    p.encodeCommands =
      (false,
        ["Attempted to encode a compute pass with an empty grid or thread group size."]) := by
  unfold ComputePassState.encodeCommands
  rw [if_pos h]

/-- Witness for the amended C9 at a concrete input. -/
theorem encode_empty_grid_warns_and_fails_witness :
    ComputePassState.encodeCommands
        { grid_size := (5, 0), thread_group_size := (1, 1),
          context_alive := true, on_encode_ok := true } =
      (false,
        ["Attempted to encode a compute pass with an empty grid or thread group size."]) :=
  encode_empty_grid_warns_and_fails _ (by decide)

/-! ## C1: coverage handed to the selected strategy -/

/-- C1 counterexample: with cull rect `(0,0,5,5)` and computed geometry
bounding box `(0,0,50,50)`, on a non-no-op render call the coverage the
dispatcher computes for the selected strategy (line 195) is the bounding box
`(0,0,50,50)`, not the cull rect — refuting the claim that the cull rect is
used when present. -/
theorem render_coverage_ignores_cull_rect :
    cullFixture.cull_rect = some (Rect.makeXYWH 0 0 5 5) ∧
    cullFixture.texture ≠ none ∧ cullFixture.blend_mode ≠ BlendMode.kClear ∧
    ¬ cullFixture.alpha ≤ 0 ∧
    cullFixture.renderStrategyCoverage = Rect.makeXYWH 0 0 50 50 ∧
    cullFixture.renderStrategyCoverage ≠ Rect.makeXYWH 0 0 5 5 := by
  have hbb : cullFixture.renderStrategyCoverage = Rect.makeXYWH 0 0 50 50 := by
    show Rect.union
      ((Rect.makeSize (Rect.makeXYWH 0 0 50 50).getSize).transformBounds
        Matrix4.identity) (Rect.makeXYWH 0 0 0 0) = Rect.makeXYWH 0 0 50 50
    norm_num [Rect.union, Rect.transformBounds, Rect.transformedPointAt,
      Matrix4.transformPoint, Matrix4.identity, Rect.pointAt, Rect.makeSize,
      Rect.getSize, Rect.makeXYWH]
  refine ⟨rfl, by decide, by decide, by norm_num [cullFixture], hbb, ?_⟩
  rw [hbb]
  intro h
  have := congrArg Rect.w h
  norm_num [Rect.makeXYWH] at this

/-- C1 (amended): the coverage rectangle the dispatcher hands to the selected
strategy is always the computed bounding box, even when a cull rect is
present; the cull rect only overrides the bounding box in the separately
reported `GetCoverage` value. -/
theorem render_coverage_is_bounding_box (c : AtlasContents) (ent : Matrix4)
    (r : Rect) (h : c.cull_rect = some r) :
    c.renderStrategyCoverage = (c.computeBoundingBox).1 ∧
    (c.getCoverage ent).1 = some (r.transformBounds ent) := by
  refine ⟨rfl, ?_⟩
  unfold AtlasContents.getCoverage
  rw [h]

/-- Witness for the amended C1 at the cull-rect fixture. -/
theorem render_coverage_is_bounding_box_witness :
    cullFixture.renderStrategyCoverage = (cullFixture.computeBoundingBox).1 ∧
    (cullFixture.getCoverage Matrix4.identity).1 =
      some ((Rect.makeXYWH 0 0 5 5).transformBounds Matrix4.identity) :=
  render_coverage_is_bounding_box cullFixture Matrix4.identity _ rfl

/-! ## C6: the single-pass Porter-Duff strategy -/

/-- C6: on the single-pass path (simple blend mode, non-empty colors, after
the no-op and direct-path guards), `Render` issues exactly one draw call
whose five blend coefficients are the table entry for the inverted blend
mode (falling back to the `source` entry when no inverse exists), with
`output_alpha` the set's alpha and `input_alpha` fixed at 1. -/
theorem render_single_pass_blend (c : AtlasContents) (env : RenderEnv)
    (tex : Texture) (htex : c.texture = some tex)
    (hclear : c.blend_mode ≠ BlendMode.kClear)
    (halpha : ¬ c.alpha ≤ 0)
    (hsrc : c.blend_mode ≠ BlendMode.kSource)
    (hcol : c.colors.length ≠ 0)
    (hdst : c.blend_mode ≠ BlendMode.kDestination)
    (hsimple : c.blend_mode.isSimple = true) :
    c.render env =
      (env.drawOk,
        [DrawCall.porterDuffDraw (c.porterDuffVertices tex.getSize)
          { output_alpha := c.alpha
            input_alpha := 1
            src_coeff := (env.porterDuffCoefficients
              ((env.invertPorterDuffBlend c.blend_mode).getD BlendMode.kSource)).src
            src_coeff_dst_alpha := (env.porterDuffCoefficients
              ((env.invertPorterDuffBlend c.blend_mode).getD
                BlendMode.kSource)).src_dst_alpha
            dst_coeff := (env.porterDuffCoefficients
              ((env.invertPorterDuffBlend c.blend_mode).getD BlendMode.kSource)).dst
            dst_coeff_src_alpha := (env.porterDuffCoefficients
              ((env.invertPorterDuffBlend c.blend_mode).getD
                BlendMode.kSource)).dst_src_alpha
            dst_coeff_src_color := (env.porterDuffCoefficients
              ((env.invertPorterDuffBlend c.blend_mode).getD
                BlendMode.kSource)).dst_src_color }
          tex],
        (c.computeBoundingBox).2) := by
  unfold AtlasContents.render
  rw [if_neg (by
    push_neg
    exact ⟨fun h => by simp [htex] at h, hclear, lt_of_not_le halpha⟩)]
  rw [if_neg (by
    push_neg
    exact ⟨hsrc, hcol⟩)]
  rw [if_neg hdst, if_pos hsimple]
  simp [htex]

/-- Witness for C6 at a concrete one-instance set with `sourceOver`. -/
theorem render_single_pass_blend_witness :
    pdFixture.render envFixture =
      (envFixture.drawOk,
        [DrawCall.porterDuffDraw (pdFixture.porterDuffVertices (Texture.getSize ⟨16, 16, 1⟩))
          { output_alpha := pdFixture.alpha
            input_alpha := 1
            src_coeff := (envFixture.porterDuffCoefficients
              ((envFixture.invertPorterDuffBlend pdFixture.blend_mode).getD
                BlendMode.kSource)).src
            src_coeff_dst_alpha := (envFixture.porterDuffCoefficients
              ((envFixture.invertPorterDuffBlend pdFixture.blend_mode).getD
                BlendMode.kSource)).src_dst_alpha
            dst_coeff := (envFixture.porterDuffCoefficients
              ((envFixture.invertPorterDuffBlend pdFixture.blend_mode).getD
                BlendMode.kSource)).dst
            dst_coeff_src_alpha := (envFixture.porterDuffCoefficients
              ((envFixture.invertPorterDuffBlend pdFixture.blend_mode).getD
                BlendMode.kSource)).dst_src_alpha
            dst_coeff_src_color := (envFixture.porterDuffCoefficients
              ((envFixture.invertPorterDuffBlend pdFixture.blend_mode).getD
                BlendMode.kSource)).dst_src_color }
          ⟨16, 16, 1⟩],
        (pdFixture.computeBoundingBox).2) :=
  render_single_pass_blend pdFixture envFixture ⟨16, 16, 1⟩ rfl (by decide)
    (by norm_num [pdFixture]) (by decide) (by decide) (by decide) (by decide)

/-! ## C8: the direct-texture path -/

theorem computeBoundingBox_snd (c : AtlasContents) :
    (c.computeBoundingBox).2 =
      { c with bounding_box_cache := some (c.computeBoundingBox).1 } := by
  obtain ⟨t, tr, tc, co, a, b, cr, bb⟩ := c
  unfold AtlasContents.computeBoundingBox
  cases bb <;> simp

/-- The texture quad emitter produces an empty stream exactly for an empty
region list. -/
theorem atlasQuadTexVertices_isEmpty (tc : List Rect) (tr : List Matrix4)
    (s : Size) : (atlasQuadTexVertices tc tr s).isEmpty = tc.isEmpty := by
  cases tc with
  | nil => rfl
  | cons hd tl =>
    simp [atlasQuadTexVertices, List.range_succ_eq_map, quadIndices]

/-- Reduction of `AtlasContents::Render` on the direct-texture route
(`blendMode == source` or empty colors): one texture draw over the parent
arrays, or a no-draw success when the vertex stream is empty. -/
theorem render_texture_route (c : AtlasContents) (env : RenderEnv)
    (tex : Texture) (htex : c.texture = some tex)
    (hclear : c.blend_mode ≠ BlendMode.kClear) (halpha : ¬ c.alpha ≤ 0)
    (hroute : c.blend_mode = BlendMode.kSource ∨ c.colors.length = 0) :
    c.render env =
      (if (atlasQuadTexVertices c.texture_coords c.transforms tex.getSize).isEmpty
       then (true, [], (c.computeBoundingBox).2)
       else
        (env.drawOk,
          [DrawCall.textureDraw
            (atlasQuadTexVertices c.texture_coords c.transforms tex.getSize)
            c.alpha tex],
          (c.computeBoundingBox).2)) := by
  unfold AtlasContents.render
  rw [if_neg (by
    push_neg
    exact ⟨fun h => by simp [htex] at h, hclear, lt_of_not_le halpha⟩)]
  rw [if_pos hroute]
  unfold AtlasTextureContents.render
  rw [computeBoundingBox_snd]
  simp only [htex]
  by_cases hv :
      (atlasQuadTexVertices c.texture_coords c.transforms tex.getSize).isEmpty
  · simp [hv]
  · simp [hv]

/-- A one-instance set on the direct-texture route (`source` blend mode). -/
def texFixture : AtlasContents :=
  { texture := some ⟨16, 16, 1⟩
    transforms := [Matrix4.identity]
    texture_coords := [Rect.makeXYWH 0 0 10 10]
    colors := [⟨1, 0, 0, 1⟩]
    alpha := 1
    blend_mode := BlendMode.kSource
    cull_rect := none
    bounding_box_cache := none }

/-- A zero-instance set on the direct-texture route. -/
def emptySetFixture : AtlasContents :=
  { texture := some ⟨16, 16, 1⟩
    transforms := []
    texture_coords := []
    colors := []
    alpha := 1
    blend_mode := BlendMode.kSource
    cull_rect := none
    bounding_box_cache := none }

/-- C8 counterexample: a zero-instance set with `source` blend mode, present
texture and positive alpha renders successfully but issues ZERO draw calls,
refuting "exactly one draw call is issued" as universally stated. -/
theorem render_source_empty_set_no_draw :
    emptySetFixture.blend_mode = BlendMode.kSource ∧
    emptySetFixture.texture ≠ none ∧
    emptySetFixture.blend_mode ≠ BlendMode.kClear ∧
    ¬ emptySetFixture.alpha ≤ 0 ∧
    (emptySetFixture.render envFixture).1 = true ∧
    ((emptySetFixture.render envFixture).2.1).length = 0 := by
  refine ⟨rfl, by decide, by decide, by norm_num [emptySetFixture], ?_, ?_⟩ <;>
  · rw [render_texture_route emptySetFixture envFixture ⟨16, 16, 1⟩ rfl
      (by decide) (by norm_num [emptySetFixture]) (Or.inl rfl)]
    rfl

/-- C8 (amended): on the direct-texture route with a non-empty instance list,
exactly one draw call is issued and it is a texture draw carrying no color
data; with an empty instance list no draw is issued; and the success flag and
emitted draw list are identical across any change of the colors list that
stays on this route. -/
theorem render_texture_path_one_draw (c : AtlasContents) (env : RenderEnv)
    (tex : Texture) (htex : c.texture = some tex)
    (hclear : c.blend_mode ≠ BlendMode.kClear) (halpha : ¬ c.alpha ≤ 0)
    (hroute : c.blend_mode = BlendMode.kSource ∨ c.colors.length = 0) :
    (c.texture_coords ≠ [] →
      (c.render env).2.1 =
        [DrawCall.textureDraw
          (atlasQuadTexVertices c.texture_coords c.transforms tex.getSize)
          c.alpha tex] ∧
      (((c.render env).2.1.getD 0 default).isTextureDraw = true) ∧
      (c.render env).1 = env.drawOk) ∧
    (c.texture_coords = [] → (c.render env).2.1 = []) ∧
    (∀ cols2 : List Color,
      (c.blend_mode = BlendMode.kSource ∨ cols2.length = 0) →
      (({ c with colors := cols2 } : AtlasContents).render env).1 =
          (c.render env).1 ∧
      (({ c with colors := cols2 } : AtlasContents).render env).2.1 =
          (c.render env).2.1) := by
  have hbase := render_texture_route c env tex htex hclear halpha hroute
  refine ⟨?_, ?_, ?_⟩
  · intro hne
    have hv : (atlasQuadTexVertices c.texture_coords c.transforms
        tex.getSize).isEmpty = false := by
      rw [atlasQuadTexVertices_isEmpty]
      simpa using hne
    rw [hbase, hv]
    exact ⟨rfl, rfl, rfl⟩
  · intro hemp
    have hv : (atlasQuadTexVertices c.texture_coords c.transforms
        tex.getSize).isEmpty = true := by
      rw [atlasQuadTexVertices_isEmpty, hemp]
      rfl
    rw [hbase, hv]
    rfl
  · intro cols2 hroute2
    have hbase2 := render_texture_route { c with colors := cols2 } env tex htex
      hclear halpha hroute2
    rw [hbase, hbase2]
    by_cases hv :
        (atlasQuadTexVertices c.texture_coords c.transforms tex.getSize).isEmpty <;>
      simp [hv]

/-- Witness for the amended C8: the one-instance `source`-mode set issues
exactly one texture draw, and replacing its colors list by the empty list
leaves the emitted draw list unchanged. -/
theorem render_texture_path_one_draw_witness :
    (texFixture.render envFixture).2.1 =
      [DrawCall.textureDraw
        (atlasQuadTexVertices texFixture.texture_coords texFixture.transforms
          (Texture.getSize ⟨16, 16, 1⟩))
        texFixture.alpha ⟨16, 16, 1⟩] ∧
    (({ texFixture with colors := [] } : AtlasContents).render envFixture).2.1 =
      (texFixture.render envFixture).2.1 := by
  have h := render_texture_path_one_draw texFixture envFixture ⟨16, 16, 1⟩ rfl
    (by decide) (by norm_num [texFixture]) (Or.inl rfl)
  exact ⟨(h.1 (by decide)).1, (h.2.2 [] (Or.inl rfl)).2⟩

/-! ## C4: the deduplication key -/

/-- Two instances with identical region `(0,0,4,4)` and identical color under
an advanced blend mode (`multiply`), as in the spec's deduplication
scenario. -/
def dedupFixture : AtlasContents :=
  { texture := some ⟨16, 16, 1⟩
    transforms := [Matrix4.identity, Matrix4.makeTranslation 8 0]
    texture_coords := [Rect.makeXYWH 0 0 4 4, Rect.makeXYWH 0 0 4 4]
    colors := [⟨1, 1, 1, 1⟩, ⟨1, 1, 1, 1⟩]
    alpha := 1
    blend_mode := BlendMode.kMultiply
    cull_rect := none
    bounding_box_cache := none }

theorem keyEqual_iff (a b : AtlasBlenderKey) :
    AtlasBlenderKey.keyEqual a b = true ↔
      a.rect = b.rect ∧ a.color_key = b.color_key := by
  simp [AtlasBlenderKey.keyEqual]

/-- `groupInsert` leaves a bucket whose key matches the inserted key. -/
theorem exists_keyEqual_groupInsert (k : AtlasBlenderKey) (t : Matrix4)
    (m : List (AtlasBlenderKey × List Matrix4)) :
    ∃ g ∈ groupInsert k t m, AtlasBlenderKey.keyEqual g.1 k = true := by
  induction m with
  | nil =>
    refine ⟨(k, [t]), ?_, ?_⟩
    · simp [groupInsert]
    · simp [keyEqual_iff]
  | cons hd tl ih =>
    obtain ⟨k', ts⟩ := hd
    by_cases h : AtlasBlenderKey.keyEqual k' k
    · refine ⟨(k', ts ++ [t]), ?_, h⟩
      simp [groupInsert, h]
    · obtain ⟨g, hg, hgk⟩ := ih
      refine ⟨g, ?_, hgk⟩
      simp [groupInsert, h]
      exact Or.inr hg

/-- `groupInsert` preserves the presence of any matched key. -/
theorem exists_keyEqual_groupInsert_of (k2 : AtlasBlenderKey) (t : Matrix4)
    (m : List (AtlasBlenderKey × List Matrix4)) (k : AtlasBlenderKey)
    (h : ∃ g ∈ m, AtlasBlenderKey.keyEqual g.1 k = true) :
    ∃ g ∈ groupInsert k2 t m, AtlasBlenderKey.keyEqual g.1 k = true := by
  induction m with
  | nil => simp at h
  | cons hd tl ih =>
    obtain ⟨k', ts⟩ := hd
    obtain ⟨g, hg, hgk⟩ := h
    by_cases hc : AtlasBlenderKey.keyEqual k' k2
    · rcases List.mem_cons.mp hg with he | hm
      · refine ⟨(k', ts ++ [t]), by simp [groupInsert, hc], ?_⟩
        have : g.1 = k' := by rw [he]
        rwa [this] at hgk
      · exact ⟨g, by simp [groupInsert, hc, hm], hgk⟩
    · rcases List.mem_cons.mp hg with he | hm
      · refine ⟨(k', ts), by simp [groupInsert, hc], ?_⟩
        have : g.1 = k' := by rw [he]
        rwa [this] at hgk
      · obtain ⟨g', hg', hgk'⟩ := ih ⟨g, hm, hgk⟩
        exact ⟨g', by simp [groupInsert, hc, hg'], hgk'⟩

/-- The grouping fold preserves the presence of any matched key. -/
theorem exists_keyEqual_foldl_of (l : List ℕ) (fk : ℕ → AtlasBlenderKey)
    (ft : ℕ → Matrix4) (acc : List (AtlasBlenderKey × List Matrix4))
    (k : AtlasBlenderKey) (h : ∃ g ∈ acc, AtlasBlenderKey.keyEqual g.1 k = true) :
    ∃ g ∈ l.foldl (fun m i => groupInsert (fk i) (ft i) m) acc,
      AtlasBlenderKey.keyEqual g.1 k = true := by
  induction l generalizing acc with
  | nil => exact h
  | cons x xs ih =>
    exact ih _ (exists_keyEqual_groupInsert_of (fk x) (ft x) acc k h)

/-- Every index consumed by the grouping fold has a bucket whose key matches
its key. -/
theorem exists_keyEqual_foldl (l : List ℕ) (fk : ℕ → AtlasBlenderKey)
    (ft : ℕ → Matrix4) (acc : List (AtlasBlenderKey × List Matrix4)) (i : ℕ)
    (hi : i ∈ l) :
    ∃ g ∈ l.foldl (fun m i => groupInsert (fk i) (ft i) m) acc,
      AtlasBlenderKey.keyEqual g.1 (fk i) = true := by
  induction l generalizing acc with
  | nil => simp at hi
  | cons x xs ih =>
    rcases List.mem_cons.mp hi with he | hm
    · subst he
      exact exists_keyEqual_foldl_of xs fk ft _ _
        (exists_keyEqual_groupInsert (fk i) (ft i) acc)
    · exact ih (groupInsert (fk x) (ft x) acc) hm

/-- Every in-range instance has a bucket in the deduplication map whose key
matches its own (under `AtlasBlenderKey::Equal`). -/
theorem exists_keyEqual_subAtlasMap (c : AtlasContents) (i : ℕ)
    (hi : i < c.texture_coords.length) :
    ∃ g ∈ c.subAtlasMap,
      AtlasBlenderKey.keyEqual g.1 (c.instanceKey i) = true :=
  exists_keyEqual_foldl _ _ _ _ i (List.mem_range.mpr hi)

/-- The index of the bucket an instance's key selects in the deduplication
map (the packed entry the instance is merged into). -/
def findGroupIdx (groups : List (AtlasBlenderKey × List Matrix4))
    (k : AtlasBlenderKey) : ℕ :=
  groups.findIdx (fun g => AtlasBlenderKey.keyEqual g.1 k)

/-- The packed-entry index of instance `i`. -/
def AtlasContents.instanceGroupIndex (c : AtlasContents) (i : ℕ) : ℕ :=
  findGroupIdx c.subAtlasMap (c.instanceKey i)

/-- C4: two instances are merged into the same packed entry iff their texture
regions are equal and their colors quantize to the same 32-bit value; the
instance key's quantized value is `ToIColor` of the instance color; the hash
combines the quantized color with the region's width/height/x/y; and the
grouping equality never consults the full-precision color components. -/
theorem dedup_groups_by_quantized_key (c : AtlasContents) (i j : ℕ)
    (hi : i < c.texture_coords.length) (hj : j < c.texture_coords.length) :
    (c.instanceGroupIndex i = c.instanceGroupIndex j ↔
      ((c.instanceKey i).rect = (c.instanceKey j).rect ∧
        (c.instanceKey i).color_key = (c.instanceKey j).color_key)) ∧
    ((c.instanceKey i).color_key = Color.toIColor (c.colors.getD i default)) ∧
    (∀ k : AtlasBlenderKey,
      k.hashInputs = (k.color_key, k.rect.w, k.rect.h, k.rect.x, k.rect.y)) ∧
    (∀ k₁ k₂ : AtlasBlenderKey, k₁.rect = k₂.rect → k₁.color_key = k₂.color_key →
      AtlasBlenderKey.keyEqual k₁ k₂ = true) := by
  refine ⟨⟨?_, ?_⟩, rfl, fun k => rfl, fun k₁ k₂ h1 h2 => by
    rw [keyEqual_iff]; exact ⟨h1, h2⟩⟩
  · intro heq
    have hpi := exists_keyEqual_subAtlasMap c i hi
    have hpj := exists_keyEqual_subAtlasMap c j hj
    have hli : List.findIdx
        (fun g => AtlasBlenderKey.keyEqual g.1 (c.instanceKey i)) c.subAtlasMap <
        c.subAtlasMap.length := List.findIdx_lt_length_of_exists hpi
    have hlj : List.findIdx
        (fun g => AtlasBlenderKey.keyEqual g.1 (c.instanceKey j)) c.subAtlasMap <
        c.subAtlasMap.length := List.findIdx_lt_length_of_exists hpj
    have hgi := List.findIdx_getElem (w := hli)
    have hgj := List.findIdx_getElem (w := hlj)
    rw [keyEqual_iff] at hgi hgj
    have heq2 : List.findIdx
        (fun g => AtlasBlenderKey.keyEqual g.1 (c.instanceKey i)) c.subAtlasMap =
        List.findIdx
          (fun g => AtlasBlenderKey.keyEqual g.1 (c.instanceKey j)) c.subAtlasMap :=
      heq
    simp only [heq2] at hgi
    exact ⟨hgi.1.symm.trans hgj.1, hgi.2.symm.trans hgj.2⟩
  · intro heq
    unfold AtlasContents.instanceGroupIndex findGroupIdx
    congr 1
    funext g
    unfold AtlasBlenderKey.keyEqual
    rw [heq.1, heq.2]

/-- Witness for C4 at a two-instance set with identical regions and colors:
both instances select packed entry 0 and the characterization holds. -/
theorem dedup_groups_by_quantized_key_witness :
    (dedupFixture.instanceGroupIndex 0 = dedupFixture.instanceGroupIndex 1 ↔
      ((dedupFixture.instanceKey 0).rect = (dedupFixture.instanceKey 1).rect ∧
        (dedupFixture.instanceKey 0).color_key =
          (dedupFixture.instanceKey 1).color_key)) ∧
    ((dedupFixture.instanceKey 0).color_key =
      Color.toIColor (dedupFixture.colors.getD 0 default)) ∧
    (∀ k : AtlasBlenderKey,
      k.hashInputs = (k.color_key, k.rect.w, k.rect.h, k.rect.x, k.rect.y)) ∧
    (∀ k₁ k₂ : AtlasBlenderKey, k₁.rect = k₂.rect → k₁.color_key = k₂.color_key →
      AtlasBlenderKey.keyEqual k₁ k₂ = true) :=
  dedup_groups_by_quantized_key dedupFixture 0 1 (by decide) (by decide)

/-! ## C2: the pack partitions the instance set -/

/-- Inserting a transform into the deduplication map adds exactly that
transform to the multiset of all bucket members. -/
theorem flatten_map_snd_groupInsert (k : AtlasBlenderKey) (t : Matrix4)
    (m : List (AtlasBlenderKey × List Matrix4)) :
    ((groupInsert k t m).map Prod.snd).flatten.Perm
      ((m.map Prod.snd).flatten ++ [t]) := by
  induction m with
  | nil => simp [groupInsert]
  | cons hd tl ih =>
    obtain ⟨k', ts⟩ := hd
    by_cases h : AtlasBlenderKey.keyEqual k' k
    · simp only [groupInsert, h, if_pos, List.map_cons, List.flatten_cons,
        List.append_assoc]
      exact List.Perm.append_left ts List.perm_append_comm
    · simp only [groupInsert, h, Bool.false_eq_true, if_neg, List.map_cons,
        List.flatten_cons, List.append_assoc, not_false_iff]
      exact List.Perm.append_left ts ih

/-- The grouping fold appends exactly the inserted transforms to the multiset
of bucket members. -/
theorem flatten_foldl_perm (l : List ℕ) (fk : ℕ → AtlasBlenderKey)
    (ft : ℕ → Matrix4) (acc : List (AtlasBlenderKey × List Matrix4)) :
    ((l.foldl (fun m i => groupInsert (fk i) (ft i) m) acc).map Prod.snd).flatten.Perm
      ((acc.map Prod.snd).flatten ++ l.map ft) := by
  induction l generalizing acc with
  | nil => simp
  | cons x xs ih =>
    have h1 := ih (groupInsert (fk x) (ft x) acc)
    have h2 := flatten_map_snd_groupInsert (fk x) (ft x) acc
    refine h1.trans ?_
    refine (h2.append_right (xs.map ft)).trans ?_
    simp [List.append_assoc]

theorem range_map_getD {α : Type} (l : List α) (d : α) :
    (List.range l.length).map (fun i => l.getD i d) = l := by
  apply List.ext_getElem
  · simp
  · intro i h1 h2
    simp only [List.getElem_map, List.getElem_range]
    exact List.getD_eq_getElem l d h2

/-- The packing fold appends each group's member transforms, in group order,
to `result_transforms`. -/
theorem foldl_packStep_result_transforms
    (gs : List (AtlasBlenderKey × List Matrix4)) (s : PackState) :
    ((gs.foldl packStep s).res).result_transforms =
      s.res.result_transforms ++ (gs.map Prod.snd).flatten := by
  induction gs generalizing s with
  | nil => simp
  | cons g gs ih =>
    rw [List.foldl_cons, ih]
    simp [packStep, List.append_assoc]

/-- The packing fold appends one region copy per member to
`result_texture_coords`. -/
theorem foldl_packStep_result_coords_length
    (gs : List (AtlasBlenderKey × List Matrix4)) (s : PackState) :
    ((gs.foldl packStep s).res).result_texture_coords.length =
      s.res.result_texture_coords.length +
        (gs.map (fun g => g.2.length)).sum := by
  induction gs generalizing s with
  | nil => simp
  | cons g gs ih =>
    rw [List.foldl_cons, ih]
    simp [packStep]
    omega

/-- The packing fold appends exactly one entry per group to each of the three
packed arrays. -/
theorem foldl_packStep_sub_lengths
    (gs : List (AtlasBlenderKey × List Matrix4)) (s : PackState) :
    ((gs.foldl packStep s).res).sub_texture_coords.length =
        s.res.sub_texture_coords.length + gs.length ∧
    ((gs.foldl packStep s).res).sub_colors.length =
        s.res.sub_colors.length + gs.length ∧
    ((gs.foldl packStep s).res).sub_transforms.length =
        s.res.sub_transforms.length + gs.length := by
  induction gs generalizing s with
  | nil => simp
  | cons g gs ih =>
    rw [List.foldl_cons]
    obtain ⟨ha, hb, hc⟩ := ih (packStep s g)
    have h1 : (packStep s g).res.sub_texture_coords.length =
        s.res.sub_texture_coords.length + 1 := by simp [packStep]
    have h2 : (packStep s g).res.sub_colors.length =
        s.res.sub_colors.length + 1 := by simp [packStep]
    have h3 : (packStep s g).res.sub_transforms.length =
        s.res.sub_transforms.length + 1 := by simp [packStep]
    simp only [List.length_cons]
    exact ⟨by omega, by omega, by omega⟩

/-- The multiset of all bucket members of the deduplication map is exactly
the multiset of instance transforms. -/
theorem subAtlasMap_flatten_perm (c : AtlasContents)
    (hT : c.transforms.length = c.texture_coords.length) :
    ((c.subAtlasMap.map Prod.snd).flatten).Perm c.transforms := by
  have h := flatten_foldl_perm (List.range c.texture_coords.length)
    c.instanceKey (fun i => c.transforms.getD i default) []
  simp only [List.map_nil, List.flatten_nil, List.nil_append] at h
  have h2 : (List.range c.texture_coords.length).map
      (fun i => c.transforms.getD i default) = c.transforms := by
    rw [← hT]
    exact range_map_getD _ _
  rw [h2] at h
  exact h

/-- C2: for every input satisfying the data-model length invariant, the group
member counts sum to the instance count, the per-instance output arrays
`result_texture_coords`/`result_transforms` both have one entry per original
instance, and the per-instance transforms are exactly the original transforms
(each instance contributes exactly once). -/
theorem pack_partitions_instances (c : AtlasContents)
    (hT : c.transforms.length = c.texture_coords.length)
    (_hC : c.colors.length = c.texture_coords.length) :
    ((c.subAtlasMap.map (fun g => g.2.length)).sum = c.texture_coords.length) ∧
    (c.generateSubAtlas).result_texture_coords.length = c.texture_coords.length ∧
    (c.generateSubAtlas).result_transforms.length = c.texture_coords.length ∧
    (c.generateSubAtlas).result_transforms.Perm c.transforms := by
  have hperm := subAtlasMap_flatten_perm c hT
  have hsum : (c.subAtlasMap.map (fun g => g.2.length)).sum =
      c.texture_coords.length := by
    have hlen := hperm.length_eq
    rw [List.length_flatten, List.map_map] at hlen
    rw [← hT]
    simpa [Function.comp] using hlen
  have hrt : (c.generateSubAtlas).result_transforms =
      (c.subAtlasMap.map Prod.snd).flatten := by
    unfold AtlasContents.generateSubAtlas
    simp [foldl_packStep_result_transforms, emptySubAtlasResult]
  refine ⟨hsum, ?_, ?_, ?_⟩
  · unfold AtlasContents.generateSubAtlas
    simp [foldl_packStep_result_coords_length, emptySubAtlasResult, hsum]
  · rw [hrt, List.length_flatten, List.map_map]
    rw [← hT] at hsum ⊢
    simpa [Function.comp] using hsum
  · rw [hrt]
    exact hperm

/-- Witness for C2 at the two-instance deduplication fixture. -/
theorem pack_partitions_instances_witness :
    ((dedupFixture.subAtlasMap.map (fun g => g.2.length)).sum =
      dedupFixture.texture_coords.length) ∧
    (dedupFixture.generateSubAtlas).result_texture_coords.length =
      dedupFixture.texture_coords.length ∧
    (dedupFixture.generateSubAtlas).result_transforms.length =
      dedupFixture.texture_coords.length ∧
    (dedupFixture.generateSubAtlas).result_transforms.Perm
      dedupFixture.transforms :=
  pack_partitions_instances dedupFixture (by decide) (by decide)

/-! ## C5: the packing loop refines the spec's shelf algorithm -/

/-- One step of the packing loop agrees with the spec's shelf step on cursor,
extents and placement, given agreeing input states. -/
theorem packStep_spec_step (s : PackState) (t : SpecPackState)
    (g : AtlasBlenderKey × List Matrix4)
    (h1 : s.x_offset = t.xOffset) (h2 : s.y_offset = t.yOffset)
    (h3 : s.x_extent = t.xExtent) (h4 : s.y_extent = t.yExtent)
    (h5 : s.res.placedRects = t.placements)
    (h6 : s.res.sub_transforms.length = s.res.sub_texture_coords.length) :
    (packStep s g).x_offset = (specShelfStep t (g.1.rect.w, g.1.rect.h)).xOffset ∧
    (packStep s g).y_offset = (specShelfStep t (g.1.rect.w, g.1.rect.h)).yOffset ∧
    (packStep s g).x_extent = (specShelfStep t (g.1.rect.w, g.1.rect.h)).xExtent ∧
    (packStep s g).y_extent = (specShelfStep t (g.1.rect.w, g.1.rect.h)).yExtent ∧
    (packStep s g).res.placedRects =
      (specShelfStep t (g.1.rect.w, g.1.rect.h)).placements ∧
    (packStep s g).res.sub_transforms.length =
      (packStep s g).res.sub_texture_coords.length := by
  have hplaced : (packStep s g).res.placedRects =
      s.res.placedRects ++
        [Rect.makeXYWH (if s.x_offset ≥ 1000 then 0 else s.x_offset)
          (if s.x_offset ≥ 1000 then s.y_extent + 1 else s.y_offset)
          g.1.rect.w g.1.rect.h] := by
    unfold SubAtlasResult.placedRects packStep
    simp only
    rw [List.zipWith_append _ _ _ _ _ h6]
    rfl
  refine ⟨?_, ?_, ?_, ?_, ?_, ?_⟩
  · simp only [packStep, specShelfStep]
    by_cases hx : s.x_offset ≥ 1000 <;> simp [hx, ← h1, ← h2, ← h3, ← h4]
  · simp only [packStep, specShelfStep]
    by_cases hx : s.x_offset ≥ 1000 <;> simp [hx, ← h1, ← h2, ← h3, ← h4]
  · simp only [packStep, specShelfStep]
    by_cases hx : s.x_offset ≥ 1000 <;> simp [hx, ← h1, ← h2, ← h3, ← h4]
  · simp only [packStep, specShelfStep]
    by_cases hx : s.x_offset ≥ 1000 <;> simp [hx, ← h1, ← h2, ← h3, ← h4]
  · rw [hplaced, h5]
    simp only [specShelfStep]
    by_cases hx : s.x_offset ≥ 1000 <;> simp [hx, ← h1, ← h2, ← h3, ← h4]
  · simp [packStep, h6]

/-- The packing fold agrees with the spec's shelf fold over the groups'
dimensions. -/
theorem foldl_packStep_spec (gs : List (AtlasBlenderKey × List Matrix4))
    (s : PackState) (t : SpecPackState)
    (h1 : s.x_offset = t.xOffset) (h2 : s.y_offset = t.yOffset)
    (h3 : s.x_extent = t.xExtent) (h4 : s.y_extent = t.yExtent)
    (h5 : s.res.placedRects = t.placements)
    (h6 : s.res.sub_transforms.length = s.res.sub_texture_coords.length) :
    (gs.foldl packStep s).x_offset =
      ((gs.map (fun g => (g.1.rect.w, g.1.rect.h))).foldl specShelfStep t).xOffset ∧
    (gs.foldl packStep s).y_offset =
      ((gs.map (fun g => (g.1.rect.w, g.1.rect.h))).foldl specShelfStep t).yOffset ∧
    (gs.foldl packStep s).x_extent =
      ((gs.map (fun g => (g.1.rect.w, g.1.rect.h))).foldl specShelfStep t).xExtent ∧
    (gs.foldl packStep s).y_extent =
      ((gs.map (fun g => (g.1.rect.w, g.1.rect.h))).foldl specShelfStep t).yExtent ∧
    (gs.foldl packStep s).res.placedRects =
      ((gs.map (fun g => (g.1.rect.w, g.1.rect.h))).foldl specShelfStep t).placements := by
  induction gs generalizing s t with
  | nil => exact ⟨h1, h2, h3, h4, h5⟩
  | cons g gs ih =>
    obtain ⟨k1, k2, k3, k4, k5, k6⟩ := packStep_spec_step s t g h1 h2 h3 h4 h5 h6
    simp only [List.map_cons, List.foldl_cons]
    exact ih (packStep s g) (specShelfStep t (g.1.rect.w, g.1.rect.h))
      k1 k2 k3 k4 k5 k6

/-- C5: `GenerateSubAtlas` packs exactly as the spec's shelf algorithm
describes — for each group in iteration order the placement and cursor
updates coincide with the spec's recurrence, the final canvas size is
`(ceil(xExtent), ceil(yExtent))`, and zero instances yield a zero-sized
canvas. -/
theorem generateSubAtlas_follows_shelf_spec (c : AtlasContents) :
    (c.generateSubAtlas).placedRects =
      (specShelfPack (c.subAtlasMap.map (fun g => (g.1.rect.w, g.1.rect.h)))).placements ∧
    (c.generateSubAtlas).size =
      specCanvasSize (c.subAtlasMap.map (fun g => (g.1.rect.w, g.1.rect.h))) ∧
    (c.texture_coords = [] → (c.generateSubAtlas).size = (0, 0)) := by
  obtain ⟨k1, k2, k3, k4, k5⟩ := foldl_packStep_spec c.subAtlasMap
    ⟨0, 0, 0, 0, emptySubAtlasResult⟩ ⟨0, 0, 0, 0, []⟩ rfl rfl rfl rfl rfl rfl
  have hsz : (c.generateSubAtlas).size =
      (qceil (c.subAtlasMap.foldl packStep
          ⟨0, 0, 0, 0, emptySubAtlasResult⟩).x_extent,
        qceil (c.subAtlasMap.foldl packStep
          ⟨0, 0, 0, 0, emptySubAtlasResult⟩).y_extent) := rfl
  have hsize : (c.generateSubAtlas).size =
      specCanvasSize (c.subAtlasMap.map (fun g => (g.1.rect.w, g.1.rect.h))) := by
    rw [hsz, k3, k4]
    rfl
  refine ⟨?_, hsize, ?_⟩
  · have hpl : (c.generateSubAtlas).placedRects =
        (c.subAtlasMap.foldl packStep
          ⟨0, 0, 0, 0, emptySubAtlasResult⟩).res.placedRects := rfl
    rw [hpl, k5]
    rfl
  · intro hemp
    have hmap : c.subAtlasMap = [] := by
      unfold AtlasContents.subAtlasMap
      rw [hemp]
      rfl
    rw [hsize, hmap]
    rfl

/-- Witness for C5 at the zero-instance fixture: the packing output matches
the spec's description and the canvas is zero-sized. -/
theorem generateSubAtlas_follows_shelf_spec_witness :
    (emptySetFixture.generateSubAtlas).placedRects =
      (specShelfPack (emptySetFixture.subAtlasMap.map
        (fun g => (g.1.rect.w, g.1.rect.h)))).placements ∧
    (emptySetFixture.generateSubAtlas).size = (0, 0) :=
  ⟨(generateSubAtlas_follows_shelf_spec emptySetFixture).1,
    (generateSubAtlas_follows_shelf_spec emptySetFixture).2.2 rfl⟩

/-! ## C3: non-overlap and canvas bounds -/

/-- Keys of the map after an insertion: an old key or the inserted one. -/
theorem mem_map_fst_groupInsert (k : AtlasBlenderKey) (t : Matrix4)
    (m : List (AtlasBlenderKey × List Matrix4)) (a : AtlasBlenderKey)
    (ha : a ∈ (groupInsert k t m).map Prod.fst) :
    a ∈ m.map Prod.fst ∨ a = k := by
  induction m with
  | nil =>
    simp [groupInsert] at ha
    exact Or.inr ha
  | cons hd tl ih =>
    obtain ⟨k', ts⟩ := hd
    by_cases h : AtlasBlenderKey.keyEqual k' k
    · simp [groupInsert, h] at ha
      rcases ha with he | hm
      · exact Or.inl (by simp [he])
      · exact Or.inl (by simp; exact Or.inr hm)
    · simp [groupInsert, h] at ha
      rcases ha with he | hm
      · exact Or.inl (by simp [he])
      · rcases ih (by simpa using hm) with h1 | h2
        · exact Or.inl (by simp; exact Or.inr (by simpa using h1))
        · exact Or.inr h2

/-- Every key of the grouping fold's output is an old key or the key of some
consumed index. -/
theorem mem_map_fst_foldl (l : List ℕ) (fk : ℕ → AtlasBlenderKey)
    (ft : ℕ → Matrix4) (acc : List (AtlasBlenderKey × List Matrix4))
    (g : AtlasBlenderKey × List Matrix4)
    (hg : g ∈ l.foldl (fun m i => groupInsert (fk i) (ft i) m) acc) :
    g.1 ∈ acc.map Prod.fst ∨ ∃ i ∈ l, g.1 = fk i := by
  induction l generalizing acc with
  | nil =>
    exact Or.inl (List.mem_map_of_mem Prod.fst hg)
  | cons x xs ih =>
    rcases ih (groupInsert (fk x) (ft x) acc) hg with h1 | h2
    · rcases mem_map_fst_groupInsert (fk x) (ft x) acc g.1 h1 with ha | hb
      · exact Or.inl ha
      · exact Or.inr ⟨x, by simp, hb⟩
    · obtain ⟨i, hi, he⟩ := h2
      exact Or.inr ⟨i, by simp [hi], he⟩

/-- Every deduplication group's key is the key of some in-range instance. -/
theorem subAtlasMap_key_is_instanceKey (c : AtlasContents)
    (g : AtlasBlenderKey × List Matrix4) (hg : g ∈ c.subAtlasMap) :
    ∃ i < c.texture_coords.length, g.1 = c.instanceKey i := by
  rcases mem_map_fst_foldl _ _ _ _ g hg with h1 | h2
  · simp at h1
  · obtain ⟨i, hi, he⟩ := h2
    exact ⟨i, List.mem_range.mp hi, he⟩

/-- One spec shelf step, written as a single record with the row-break folded
into each field. -/
theorem specShelfStep_eq (t : SpecPackState) (d : ℚ × ℚ) :
    specShelfStep t d =
      { xOffset := (if t.xOffset ≥ 1000 then 0 else t.xOffset) +
          (qceil d.1 : ℚ) + 1
        yOffset := if t.xOffset ≥ 1000 then t.yExtent + 1 else t.yOffset
        xExtent := max t.xExtent
          ((if t.xOffset ≥ 1000 then 0 else t.xOffset) + (qceil d.1 : ℚ) + 1)
        yExtent := max t.yExtent
          (qceil ((if t.xOffset ≥ 1000 then t.yExtent + 1 else t.yOffset) + d.2) : ℚ)
        placements := t.placements ++
          [Rect.makeXYWH (if t.xOffset ≥ 1000 then 0 else t.xOffset)
            (if t.xOffset ≥ 1000 then t.yExtent + 1 else t.yOffset) d.1 d.2] } := by
  by_cases hb : t.xOffset ≥ 1000 <;> simp [specShelfStep, hb]

/-- The extents of the spec shelf fold bound every placed rectangle,
regardless of the sign of the dimensions. -/
theorem specShelfPack_extent_bound (dims : List (ℚ × ℚ)) (t : SpecPackState)
    (hx : ∀ r ∈ t.placements, r.x + r.w ≤ t.xExtent)
    (hy : ∀ r ∈ t.placements, r.y + r.h ≤ t.yExtent) :
    (∀ r ∈ (dims.foldl specShelfStep t).placements,
      r.x + r.w ≤ (dims.foldl specShelfStep t).xExtent) ∧
    (∀ r ∈ (dims.foldl specShelfStep t).placements,
      r.y + r.h ≤ (dims.foldl specShelfStep t).yExtent) := by
  induction dims generalizing t with
  | nil => exact ⟨hx, hy⟩
  | cons d ds ih =>
    rw [List.foldl_cons, specShelfStep_eq]
    apply ih
    · intro r hr
      simp only [List.mem_append, List.mem_singleton] at hr
      rcases hr with hold | hnew
      · exact le_trans (hx r hold) (le_max_left _ _)
      · subst hnew
        simp only [Rect.makeXYWH]
        refine le_trans ?_ (le_max_right _ _)
        have := le_qceil d.1
        linarith
    · intro r hr
      simp only [List.mem_append, List.mem_singleton] at hr
      rcases hr with hold | hnew
      · exact le_trans (hy r hold) (le_max_left _ _)
      · subst hnew
        simp only [Rect.makeXYWH]
        refine le_trans ?_ (le_max_right _ _)
        exact le_qceil _

/-- With nonnegative dimensions, the spec shelf fold keeps all placed
rectangles pairwise disjoint.  The invariants: every placed rectangle ends
above the running `yExtent`, and sits either strictly above the current row
or inside it with its right edge left of the cursor. -/
theorem specShelfPack_no_overlap (dims : List (ℚ × ℚ)) (t : SpecPackState)
    (hd : ∀ d ∈ dims, 0 ≤ d.1 ∧ 0 ≤ d.2)
    (hyext : ∀ r ∈ t.placements, r.y + r.h ≤ t.yExtent)
    (hrow : ∀ r ∈ t.placements,
      r.y + r.h ≤ t.yOffset ∨ (r.y = t.yOffset ∧ r.x + r.w < t.xOffset))
    (hno : noOverlap t.placements) :
    noOverlap (dims.foldl specShelfStep t).placements := by
  induction dims generalizing t with
  | nil => exact hno
  | cons d ds ih =>
    rw [List.foldl_cons]
    have hd0 : 0 ≤ d.1 ∧ 0 ≤ d.2 := hd d (by simp)
    have hds : ∀ d' ∈ ds, 0 ≤ d'.1 ∧ 0 ≤ d'.2 := fun d' h => hd d' (by simp [h])
    -- the possibly row-broken intermediate state
    set bs : SpecPackState :=
      if t.xOffset ≥ 1000 then { t with yOffset := t.yExtent + 1, xOffset := 0 }
      else t with hbs
    have hbs_placements : bs.placements = t.placements := by
      by_cases hb : t.xOffset ≥ 1000 <;> simp [hbs, hb]
    have hbs_yExtent : bs.yExtent = t.yExtent := by
      by_cases hb : t.xOffset ≥ 1000 <;> simp [hbs, hb]
    have hbs_row : ∀ r ∈ bs.placements,
        r.y + r.h ≤ bs.yOffset ∨ (r.y = bs.yOffset ∧ r.x + r.w < bs.xOffset) := by
      intro r hr
      rw [hbs_placements] at hr
      by_cases hb : t.xOffset ≥ 1000
      · simp only [hbs, hb, if_pos]
        left
        have := hyext r hr
        linarith
      · simp only [hbs, hb, if_neg, not_false_iff]
        exact hrow r hr
    have hstep : specShelfStep t d =
        { xOffset := bs.xOffset + (qceil d.1 : ℚ) + 1
          yOffset := bs.yOffset
          xExtent := max bs.xExtent (bs.xOffset + (qceil d.1 : ℚ) + 1)
          yExtent := max bs.yExtent (qceil (bs.yOffset + d.2) : ℚ)
          placements := bs.placements ++
            [Rect.makeXYWH bs.xOffset bs.yOffset d.1 d.2] } := by
      by_cases hb : t.xOffset ≥ 1000 <;> simp [specShelfStep, hbs, hb]
    apply ih (specShelfStep t d) hds
    · intro r hr
      rw [hstep] at hr ⊢
      simp only [List.mem_append, List.mem_singleton] at hr
      rcases hr with hold | hnew
      · rw [hbs_placements] at hold
        exact le_trans (hyext r hold) (by rw [← hbs_yExtent]; exact le_max_left _ _)
      · subst hnew
        simp [Rect.makeXYWH]
        right
        exact le_qceil _
    · intro r hr
      rw [hstep] at hr ⊢
      simp only [List.mem_append, List.mem_singleton] at hr
      rcases hr with hold | hnew
      · rcases hbs_row r hold with h1 | h2
        · exact Or.inl h1
        · refine Or.inr ⟨h2.1, ?_⟩
          have h0 : (0 : ℚ) ≤ (qceil d.1 : ℚ) := le_trans hd0.1 (le_qceil d.1)
          simp only
          linarith [h2.2]
      · subst hnew
        refine Or.inr ⟨rfl, ?_⟩
        simp [Rect.makeXYWH]
        have := le_qceil d.1
        linarith
    · rw [hstep]
      simp only
      unfold noOverlap
      rw [List.pairwise_append]
      refine ⟨by rw [hbs_placements]; exact hno, List.pairwise_singleton _ _, ?_⟩
      intro r hr b hb
      rw [List.mem_singleton] at hb
      subst hb
      intro hov
      rcases hbs_row r hr with h1 | h2
      · have h4 := hov.2.2.2
        simp [Rect.makeXYWH] at h4
        linarith
      · have h4 := hov.2.1
        simp [Rect.makeXYWH] at h4
        linarith [h2.2]

/-- Three distinct regions, the middle one with negative width, under an
advanced blend mode: the packed rectangles of groups 1 and 3 overlap. -/
def c3Fixture : AtlasContents :=
  { texture := some ⟨16, 16, 1⟩
    transforms := [Matrix4.identity, Matrix4.identity, Matrix4.identity]
    texture_coords := [Rect.makeXYWH 0 0 3 2, Rect.makeXYWH 0 0 (-10) 2,
      Rect.makeXYWH 0 0 8 2]
    colors := [⟨0, 0, 0, 1⟩, ⟨0, 0, 0, 1⟩, ⟨0, 0, 0, 1⟩]
    alpha := 1
    blend_mode := BlendMode.kMultiply
    cull_rect := none
    bounding_box_cache := none }

/-- C3 counterexample: with a negative-width region in the input, the packing
cursor moves backwards (`x += ceil(-10) + 1` at 4 gives -5) and a later
rectangle is placed overlapping an earlier one — the claimed universal
non-overlap is false. -/
theorem pack_rects_can_overlap :
    ¬ noOverlap (c3Fixture.generateSubAtlas).placedRects := by
  have hp : (c3Fixture.generateSubAtlas).placedRects =
      [Rect.makeXYWH 0 0 3 2, Rect.makeXYWH 4 0 (-10) 2,
        Rect.makeXYWH (-5) 0 8 2] := by
    norm_num [c3Fixture, AtlasContents.generateSubAtlas,
      AtlasContents.subAtlasMap, AtlasContents.instanceKey, groupInsert,
      AtlasBlenderKey.keyEqual, Color.toIColor, colorChannelByte, qfloor,
      qceil, packStep, SubAtlasResult.placedRects, emptySubAtlasResult,
      Rect.makeXYWH, Matrix4.makeTranslation, Matrix4.identity,
      List.range_succ]
  rw [hp]
  intro h
  have h02 := (List.pairwise_cons.mp h).1 (Rect.makeXYWH (-5) 0 8 2) (by simp)
  apply h02
  refine ⟨?_, ?_, ?_, ?_⟩ <;> norm_num [Rect.makeXYWH]

/-- C3 (amended): when every input region has nonnegative width and height,
no two packed rectangles overlap; and unconditionally the returned canvas
size bounds every packed rectangle's extent. -/
theorem pack_no_overlap_and_canvas_bound (c : AtlasContents) :
    ((∀ r ∈ c.texture_coords, 0 ≤ r.w ∧ 0 ≤ r.h) →
      noOverlap (c.generateSubAtlas).placedRects) ∧
    (∀ r ∈ (c.generateSubAtlas).placedRects,
      r.x + r.w ≤ ((c.generateSubAtlas).size.1 : ℚ) ∧
      r.y + r.h ≤ ((c.generateSubAtlas).size.2 : ℚ)) := by
  obtain ⟨k1, k2, k3, k4, k5⟩ := foldl_packStep_spec c.subAtlasMap
    ⟨0, 0, 0, 0, emptySubAtlasResult⟩ ⟨0, 0, 0, 0, []⟩ rfl rfl rfl rfl rfl rfl
  have hpl : (c.generateSubAtlas).placedRects =
      ((c.subAtlasMap.map (fun g => (g.1.rect.w, g.1.rect.h))).foldl
        specShelfStep ⟨0, 0, 0, 0, []⟩).placements := by
    have hpl0 : (c.generateSubAtlas).placedRects =
        (c.subAtlasMap.foldl packStep
          ⟨0, 0, 0, 0, emptySubAtlasResult⟩).res.placedRects := rfl
    rw [hpl0, k5]
  have hsz : (c.generateSubAtlas).size =
      (qceil (c.subAtlasMap.foldl packStep
          ⟨0, 0, 0, 0, emptySubAtlasResult⟩).x_extent,
        qceil (c.subAtlasMap.foldl packStep
          ⟨0, 0, 0, 0, emptySubAtlasResult⟩).y_extent) := rfl
  constructor
  · intro hd
    have hdims : ∀ d ∈ c.subAtlasMap.map (fun g => (g.1.rect.w, g.1.rect.h)),
        0 ≤ d.1 ∧ 0 ≤ d.2 := by
      intro d hdm
      rw [List.mem_map] at hdm
      obtain ⟨g, hg, he⟩ := hdm
      obtain ⟨i, hi, hk⟩ := subAtlasMap_key_is_instanceKey c g hg
      have hrect : g.1.rect = c.texture_coords.getD i default := by rw [hk]; rfl
      have hmem : c.texture_coords.getD i default ∈ c.texture_coords := by
        rw [List.getD_eq_getElem c.texture_coords default hi]
        exact List.getElem_mem hi
      have hwh := hd _ hmem
      subst he
      simp only
      rw [hrect]
      exact hwh
    have := specShelfPack_no_overlap
      (c.subAtlasMap.map (fun g => (g.1.rect.w, g.1.rect.h)))
      ⟨0, 0, 0, 0, []⟩ hdims (by simp) (by simp) (by simp [noOverlap])
    rw [hpl]
    exact this
  · intro r hr
    obtain ⟨hbx, hby⟩ := specShelfPack_extent_bound
      (c.subAtlasMap.map (fun g => (g.1.rect.w, g.1.rect.h)))
      ⟨0, 0, 0, 0, []⟩ (by simp) (by simp)
    rw [hpl] at hr
    have h1 := hbx r hr
    have h2 := hby r hr
    rw [hsz, k3, k4]
    constructor
    · exact le_trans h1 (le_qceil _)
    · exact le_trans h2 (le_qceil _)

/-- Witness for the amended C3 at the two-instance deduplication fixture:
one packed rectangle, trivially non-overlapping and inside the canvas. -/
theorem pack_no_overlap_and_canvas_bound_witness :
    noOverlap (dedupFixture.generateSubAtlas).placedRects ∧
    ((Rect.makeXYWH 0 0 4 4).x + (Rect.makeXYWH 0 0 4 4).w ≤
      ((dedupFixture.generateSubAtlas).size.1 : ℚ) ∧
     (Rect.makeXYWH 0 0 4 4).y + (Rect.makeXYWH 0 0 4 4).h ≤
      ((dedupFixture.generateSubAtlas).size.2 : ℚ)) := by
  have hp : (dedupFixture.generateSubAtlas).placedRects =
      [Rect.makeXYWH 0 0 4 4] := by
    norm_num [dedupFixture, AtlasContents.generateSubAtlas,
      AtlasContents.subAtlasMap, AtlasContents.instanceKey, groupInsert,
      AtlasBlenderKey.keyEqual, Color.toIColor, colorChannelByte, qfloor,
      qceil, packStep, SubAtlasResult.placedRects, emptySubAtlasResult,
      Rect.makeXYWH, Matrix4.makeTranslation, Matrix4.identity,
      List.range_succ]
  exact ⟨(pack_no_overlap_and_canvas_bound dedupFixture).1 (by decide),
    (pack_no_overlap_and_canvas_bound dedupFixture).2 _ (by rw [hp]; simp)⟩

/-! ## C10: parallel-array accesses are in bounds -/

/-- The guard of step 1 of the dispatcher (benign no-op). -/
def AtlasContents.noOpGuard (c : AtlasContents) : Prop :=
  c.texture = none ∨ c.blend_mode = BlendMode.kClear ∨ c.alpha ≤ 0

/-- The dispatcher reaches the direct-texture strategy. -/
def AtlasContents.takesTextureRoute (c : AtlasContents) : Prop :=
  ¬ c.noOpGuard ∧ (c.blend_mode = BlendMode.kSource ∨ c.colors.length = 0)

/-- The dispatcher reaches the direct-color strategy. -/
def AtlasContents.takesDestinationRoute (c : AtlasContents) : Prop :=
  ¬ c.noOpGuard ∧ ¬ (c.blend_mode = BlendMode.kSource ∨ c.colors.length = 0) ∧
    c.blend_mode = BlendMode.kDestination

/-- The dispatcher reaches the single-pass Porter-Duff strategy. -/
def AtlasContents.takesSinglePassRoute (c : AtlasContents) : Prop :=
  ¬ c.noOpGuard ∧ ¬ (c.blend_mode = BlendMode.kSource ∨ c.colors.length = 0) ∧
    c.blend_mode ≠ BlendMode.kDestination ∧ c.blend_mode.isSimple = true

/-- The dispatcher reaches the compositing (advanced-blend) strategy. -/
def AtlasContents.takesAdvancedRoute (c : AtlasContents) : Prop :=
  ¬ c.noOpGuard ∧ ¬ (c.blend_mode = BlendMode.kSource ∨ c.colors.length = 0) ∧
    c.blend_mode ≠ BlendMode.kDestination ∧ c.blend_mode.isSimple = false

instance (c : AtlasContents) : Decidable c.noOpGuard := by
  unfold AtlasContents.noOpGuard; infer_instance

instance (c : AtlasContents) : Decidable c.takesAdvancedRoute := by
  unfold AtlasContents.takesAdvancedRoute; infer_instance

/-- C10: under the data-model length invariant, every `colors_[i]` /
`transforms_[i]` access made on a color-consuming path is in bounds: the
single-pass loop, `GenerateSubAtlas` (whose entry assertion also holds on the
advanced route), and the destination route's color loop all index within all
three parallel arrays; and the sub-atlas result arrays read in lockstep by
the child strategies are equal in length by construction. -/
theorem parallel_array_access_safety (c : AtlasContents)
    (hT : c.transforms.length = c.texture_coords.length)
    (hC : c.colors = [] ∨ c.colors.length = c.transforms.length) :
    (c.takesSinglePassRoute →
      ∀ i < c.texture_coords.length,
        i < c.colors.length ∧ i < c.transforms.length) ∧
    (c.takesAdvancedRoute →
      (c.colors.length > 0 ∧ c.blend_mode ≠ BlendMode.kSource ∧
        c.blend_mode ≠ BlendMode.kDestination) ∧
      ∀ i < c.texture_coords.length,
        i < c.colors.length ∧ i < c.transforms.length) ∧
    (c.takesDestinationRoute →
      ∀ i < c.texture_coords.length,
        i < c.colors.length ∧ i < c.transforms.length) ∧
    ((c.generateSubAtlas).sub_colors.length =
        (c.generateSubAtlas).sub_texture_coords.length ∧
      (c.generateSubAtlas).sub_transforms.length =
        (c.generateSubAtlas).sub_texture_coords.length ∧
      (c.generateSubAtlas).result_transforms.length =
        (c.generateSubAtlas).result_texture_coords.length) := by
  have hbounds : ¬ (c.blend_mode = BlendMode.kSource ∨ c.colors.length = 0) →
      ∀ i < c.texture_coords.length,
        i < c.colors.length ∧ i < c.transforms.length := by
    intro hng i hi
    push_neg at hng
    have hcne : c.colors ≠ [] := by
      intro he
      exact hng.2 (by simp [he])
    have hclen : c.colors.length = c.transforms.length := hC.resolve_left hcne
    exact ⟨by omega, by omega⟩
  refine ⟨fun hroute => hbounds hroute.2.1, fun hroute => ?_, fun hroute =>
    hbounds hroute.2.1, ?_⟩
  · have hb := hbounds hroute.2.1
    have hng := hroute.2.1
    push_neg at hng
    exact ⟨⟨by omega, hng.1, hroute.2.2.1⟩, hb⟩
  · have h1 := foldl_packStep_sub_lengths c.subAtlasMap
      ⟨0, 0, 0, 0, emptySubAtlasResult⟩
    have h2 := foldl_packStep_result_transforms c.subAtlasMap
      ⟨0, 0, 0, 0, emptySubAtlasResult⟩
    have h3 := foldl_packStep_result_coords_length c.subAtlasMap
      ⟨0, 0, 0, 0, emptySubAtlasResult⟩
    have e1 : (c.generateSubAtlas).sub_colors.length =
        (c.subAtlasMap.foldl packStep
          ⟨0, 0, 0, 0, emptySubAtlasResult⟩).res.sub_colors.length := rfl
    have e2 : (c.generateSubAtlas).sub_texture_coords.length =
        (c.subAtlasMap.foldl packStep
          ⟨0, 0, 0, 0, emptySubAtlasResult⟩).res.sub_texture_coords.length := rfl
    have e3 : (c.generateSubAtlas).sub_transforms.length =
        (c.subAtlasMap.foldl packStep
          ⟨0, 0, 0, 0, emptySubAtlasResult⟩).res.sub_transforms.length := rfl
    have e4 : (c.generateSubAtlas).result_transforms =
        (c.subAtlasMap.foldl packStep
          ⟨0, 0, 0, 0, emptySubAtlasResult⟩).res.result_transforms := rfl
    have e5 : (c.generateSubAtlas).result_texture_coords.length =
        (c.subAtlasMap.foldl packStep
          ⟨0, 0, 0, 0, emptySubAtlasResult⟩).res.result_texture_coords.length := rfl
    refine ⟨?_, ?_, ?_⟩
    · rw [e1, e2, h1.2.1, h1.1]
      simp [emptySubAtlasResult]
    · rw [e3, e2, h1.2.2, h1.1]
      simp [emptySubAtlasResult]
    · rw [e4, h2, e5, h3]
      simp only [emptySubAtlasResult, List.nil_append, List.length_nil,
        List.length_flatten, List.map_map, Nat.zero_add]
      rfl

/-- Witness for C10 at the advanced-route deduplication fixture. -/
theorem parallel_array_access_safety_witness :
    ((dedupFixture.colors.length > 0 ∧
      dedupFixture.blend_mode ≠ BlendMode.kSource ∧
      dedupFixture.blend_mode ≠ BlendMode.kDestination) ∧
     (0 < dedupFixture.colors.length ∧ 0 < dedupFixture.transforms.length)) ∧
    (dedupFixture.generateSubAtlas).sub_colors.length =
      (dedupFixture.generateSubAtlas).sub_texture_coords.length := by
  have h := parallel_array_access_safety dedupFixture (by decide)
    (Or.inr (by decide))
  have h2 := h.2.1 (by decide)
  exact ⟨⟨h2.1, h2.2 0 (by decide)⟩, h.2.2.2.1⟩

end Impeller
